import Mathlib

/-
Shallow embedding of the stock-ledger transaction engine of WMS-Python
(src/application/services.py, class InventoryService) over in-memory
models of the Variant Store and Document Store (src/domain/models.py,
src/infrastructure/repositories.py).  Python integers are unbounded, so
quantities and stock levels are Lean `Int`.  Fields the engine never
reads (unit_price, doc_date, note, created_at, sku generation) are
omitted; everything the engine branches on is kept.
-/

namespace WMS

/-- Variant (src/domain/models.py): a stock-keeping unit.  `id` is the
store-assigned identifier (Python `Optional[int]`, always set for rows
living in the store). -/
structure Variant where
  id : Nat
  product_id : Nat
  size : String
  color : String
  sku : String
  stock_qty : Int
  safety_stock : Int
deriving DecidableEq, Repr

/-- Variant.display_name: the f-string "size / color". -/
def Variant.display_name (v : Variant) : String :=
  v.size ++ " / " ++ v.color

/-- Variant.is_low_stock: stock_qty <= safety_stock. -/
def Variant.is_low_stock (v : Variant) : Bool :=
  v.stock_qty ≤ v.safety_stock

/-- DocumentItem (src/domain/models.py): a line of a document.  The
engine reads only variant_id and quantity. -/
structure DocumentItem where
  variant_id : Nat
  quantity : Int
deriving DecidableEq, Repr

/-- Document (src/domain/models.py): header plus ordered items.
doc_type is one of "INBOUND", "OUTBOUND", "ADJUST". -/
structure Document where
  id : Nat
  doc_type : String
  items : List DocumentItem
deriving DecidableEq, Repr

/-- Errors raised by the engine (src/domain/exceptions.py), carrying the
message string built by the corresponding f-string in services.py. -/
inductive WmsError where
  | businessRuleViolation (msg : String) : WmsError
  | entityNotFoundError (msg : String) : WmsError
  | outOfStockError (msg : String) : WmsError
deriving DecidableEq, Repr

/-- Combined state of the two stores.  `next_doc_id` models the
autoincrement id the Document Store assigns on insert. -/
structure State where
  variants : List Variant
  documents : List Document
  next_doc_id : Nat
deriving DecidableEq, Repr

namespace ProductRepo

/-- Variant Store fetch-by-id (IProductRepository.get_variant_by_id). -/
def get_variant_by_id (vs : List Variant) (vid : Nat) : Option Variant :=
  vs.find? (fun v => v.id == vid)

/-- Variant Store update (IProductRepository.update_variant): replace the
row whose id matches. -/
def update_variant (vs : List Variant) (v : Variant) : List Variant :=
  vs.map (fun w => if w.id == v.id then v else w)

end ProductRepo

namespace DocumentRepo

/-- Document Store create (SqliteDocumentRepository.add_document):
persist header and items as one unit, assigning the next id. -/
def add_document (s : State) (document : Document) : State × Document :=
  let saved := { document with id := s.next_doc_id }
  ({ s with documents := s.documents ++ [saved],
            next_doc_id := s.next_doc_id + 1 }, saved)

/-- Document Store fetch-by-id. -/
def get_document_by_id (ds : List Document) (doc_id : Nat) : Option Document :=
  ds.find? (fun d => d.id == doc_id)

/-- Document Store delete-by-id. -/
def delete_document (ds : List Document) (doc_id : Nat) : List Document :=
  ds.filter (fun d => d.id != doc_id)

end DocumentRepo

namespace InventoryService

/-- Stock-application loop of create_inbound_order: for each item, fetch
the variant; if missing, log and skip; else stock_qty += quantity. -/
def apply_inbound_items (vs : List Variant) : List DocumentItem → List Variant
  | [] => vs
  | item :: rest =>
    match ProductRepo.get_variant_by_id vs item.variant_id with
    | none => apply_inbound_items vs rest
    | some variant =>
        apply_inbound_items
          (ProductRepo.update_variant vs
            { variant with stock_qty := variant.stock_qty + item.quantity }) rest

/-- InventoryService.create_inbound_order: reject a non-INBOUND type,
persist the document, then add each item's quantity to its variant. -/
def create_inbound_order (s : State) (document : Document) :
    State × Except WmsError Document :=
  if document.doc_type ≠ "INBOUND" then
    (s, .error (.businessRuleViolation "單據類型必須為 INBOUND"))
  else
    let p := DocumentRepo.add_document s document
    ({ p.1 with variants := apply_inbound_items p.1.variants p.2.items }, .ok p.2)

/-- Pre-check loop of create_outbound_order: first missing variant gives
EntityNotFoundError, first insufficient stock gives OutOfStockError. -/
def outbound_precheck (vs : List Variant) : List DocumentItem → Option WmsError
  | [] => none
  | item :: rest =>
    match ProductRepo.get_variant_by_id vs item.variant_id with
    | none => some (.entityNotFoundError
        ("變體 ID " ++ toString item.variant_id ++ " 不存在"))
    | some variant =>
        if variant.stock_qty < item.quantity then
          some (.outOfStockError
            ("庫存不足: " ++ variant.display_name ++ " (庫存: " ++
             toString variant.stock_qty ++ ", 需求: " ++ toString item.quantity ++ ")"))
        else outbound_precheck vs rest

/-- Commit loop of create_outbound_order: stock_qty -= quantity for each
item.  The missing-variant branch is unreachable after a passed
pre-check (in Python the re-fetch is not None-checked). -/
def apply_outbound_items (vs : List Variant) : List DocumentItem → List Variant
  | [] => vs
  | item :: rest =>
    match ProductRepo.get_variant_by_id vs item.variant_id with
    | none => apply_outbound_items vs rest
    | some variant =>
        apply_outbound_items
          (ProductRepo.update_variant vs
            { variant with stock_qty := variant.stock_qty - item.quantity }) rest

/-- InventoryService.create_outbound_order: reject a non-OUTBOUND type,
pre-check every item, then persist and decrement. -/
def create_outbound_order (s : State) (document : Document) :
    State × Except WmsError Document :=
  if document.doc_type ≠ "OUTBOUND" then
    (s, .error (.businessRuleViolation "單據類型必須為 OUTBOUND"))
  else
    match outbound_precheck s.variants document.items with
    | some e => (s, .error e)
    | none =>
      let p := DocumentRepo.add_document s document
      ({ p.1 with variants := apply_outbound_items p.1.variants p.2.items }, .ok p.2)

/-- Apply loop of create_adjustment_order: for each item in order, fetch
the variant (missing: skip), compute new_qty = stock_qty + quantity;
negative new_qty raises BusinessRuleViolation mid-loop, else write it. -/
def adjust_items (vs : List Variant) :
    List DocumentItem → List Variant × Option WmsError
  | [] => (vs, none)
  | item :: rest =>
    match ProductRepo.get_variant_by_id vs item.variant_id with
    | none => adjust_items vs rest
    | some variant =>
        let new_qty := variant.stock_qty + item.quantity
        if new_qty < 0 then
          (vs, some (.businessRuleViolation
            ("調整後庫存不能為負數: " ++ variant.display_name)))
        else
          adjust_items
            (ProductRepo.update_variant vs { variant with stock_qty := new_qty }) rest

/-- InventoryService.create_adjustment_order: reject a non-ADJUST type,
persist the document first, then run the apply loop; an error raised in
the loop leaves the persisted document and earlier deltas in place. -/
def create_adjustment_order (s : State) (document : Document) :
    State × Except WmsError Document :=
  if document.doc_type ≠ "ADJUST" then
    (s, .error (.businessRuleViolation "單據類型必須為 ADJUST"))
  else
    let p := DocumentRepo.add_document s document
    match adjust_items p.1.variants p.2.items with
    | (vs, some e) => ({ p.1 with variants := vs }, .error e)
    | (vs, none) => ({ p.1 with variants := vs }, .ok p.2)

/-- Reversal delta of one item in delete_document: -quantity for
INBOUND, +quantity for OUTBOUND, -quantity for ADJUST, 0 otherwise
(the Python `change = 0` initialisation with an if/elif chain). -/
def reversal_change (doc_type : String) (q : Int) : Int :=
  if doc_type = "INBOUND" then -q
  else if doc_type = "OUTBOUND" then q
  else if doc_type = "ADJUST" then -q
  else 0

/-- Insertion-ordered upsert mirroring
`impacts[vid] = impacts.get(vid, 0) + change` on a Python dict. -/
def add_impact (impacts : List (Nat × Int)) (vid : Nat) (change : Int) :
    List (Nat × Int) :=
  match impacts with
  | [] => [(vid, change)]
  | (k, c) :: rest =>
      if k == vid then (k, c + change) :: rest
      else (k, c) :: add_impact rest vid change

/-- Impact pre-calculation of delete_document: fold the items into a
per-variant net change, in document order. -/
def compute_impacts (doc : Document) : List (Nat × Int) :=
  doc.items.foldl
    (fun acc item =>
      add_impact acc item.variant_id (reversal_change doc.doc_type item.quantity)) []

/-- Strict check of delete_document: only negative changes are checked;
a missing variant is skipped (continue); stock_qty + change < 0 raises
BusinessRuleViolation. -/
def strict_check (vs : List Variant) : List (Nat × Int) → Option WmsError
  | [] => none
  | (vid, change) :: rest =>
    if change < 0 then
      match ProductRepo.get_variant_by_id vs vid with
      | none => strict_check vs rest
      | some variant =>
          if variant.stock_qty + change < 0 then
            some (.businessRuleViolation
              ("庫存不足，請先補單並備註。\n商品: " ++ variant.display_name ++
               "\n當前: " ++ toString variant.stock_qty ++
               ", 回滾需扣: " ++ toString change.natAbs))
          else strict_check vs rest
    else strict_check vs rest

/-- Rollback loop of delete_document: skip zero changes and missing
variants, else stock_qty += change. -/
def apply_impacts (vs : List Variant) : List (Nat × Int) → List Variant
  | [] => vs
  | (vid, change) :: rest =>
    if change == 0 then apply_impacts vs rest
    else
      match ProductRepo.get_variant_by_id vs vid with
      | none => apply_impacts vs rest
      | some variant =>
          apply_impacts
            (ProductRepo.update_variant vs
              { variant with stock_qty := variant.stock_qty + change }) rest

/-- InventoryService.delete_document: fetch the document, compute net
impacts, strict-check, apply the rollback, then delete the document. -/
def delete_document (s : State) (doc_id : Nat) : State × Except WmsError Unit :=
  match DocumentRepo.get_document_by_id s.documents doc_id with
  | none => (s, .error (.entityNotFoundError ("單據 ID " ++ toString doc_id ++ " 不存在")))
  | some doc =>
    let impacts := compute_impacts doc
    match strict_check s.variants impacts with
    | some e => (s, .error e)
    | none =>
      ({ s with variants := apply_impacts s.variants impacts,
                documents := DocumentRepo.delete_document s.documents doc_id }, .ok ())

end InventoryService

/-- Stock level of variant `vid` in a variant store, `none` if absent. -/
def stock_of (vs : List Variant) (vid : Nat) : Option Int :=
  (ProductRepo.get_variant_by_id vs vid).map Variant.stock_qty

/-- Sum of the quantities of the items referencing variant `vid`. -/
def items_sum : List DocumentItem → Nat → Int
  | [], _ => 0
  | i :: rest, vid =>
      (if i.variant_id == vid then i.quantity else 0) + items_sum rest vid

/-- Sum of the reversal deltas of the items referencing variant `vid`. -/
def reversal_sum : List DocumentItem → String → Nat → Int
  | [], _, _ => 0
  | i :: rest, t, vid =>
      (if i.variant_id == vid then InventoryService.reversal_change t i.quantity else 0) +
        reversal_sum rest t vid

/-- Total change recorded for `vid` in an impacts accumulator. -/
def impact_sum : List (Nat × Int) → Nat → Int
  | [], _ => 0
  | (k, c) :: rest, vid => (if k == vid then c else 0) + impact_sum rest vid

lemma get_variant_nil (vid : Nat) :
    ProductRepo.get_variant_by_id [] vid = none := rfl

lemma get_variant_cons (w : Variant) (rest : List Variant) (vid : Nat) :
    ProductRepo.get_variant_by_id (w :: rest) vid =
      if w.id = vid then some w else ProductRepo.get_variant_by_id rest vid := by
  by_cases h : w.id = vid
  · have hb : (w.id == vid) = true := by simpa using h
    simp [ProductRepo.get_variant_by_id, List.find?_cons_of_pos, hb, h]
  · have hb : ¬ ((w.id == vid) = true) := by simpa using h
    simp [ProductRepo.get_variant_by_id, List.find?_cons_of_neg, hb, h]

lemma update_variant_cons (w : Variant) (rest : List Variant) (v : Variant) :
    ProductRepo.update_variant (w :: rest) v =
      (if w.id = v.id then v else w) :: ProductRepo.update_variant rest v := by
  by_cases h : w.id = v.id <;> simp [ProductRepo.update_variant, h]

lemma get_some_id {vs : List Variant} {vid : Nat} {v : Variant}
    (h : ProductRepo.get_variant_by_id vs vid = some v) : v.id = vid := by
  induction vs with
  | nil => simp [get_variant_nil] at h
  | cons w rest ih =>
    rw [get_variant_cons] at h
    by_cases hw : w.id = vid
    · rw [if_pos hw] at h
      obtain rfl := Option.some.inj h
      exact hw
    · rw [if_neg hw] at h
      exact ih h

lemma get_update_ne {vs : List Variant} {v : Variant} {vid : Nat} (h : v.id ≠ vid) :
    ProductRepo.get_variant_by_id (ProductRepo.update_variant vs v) vid =
      ProductRepo.get_variant_by_id vs vid := by
  induction vs with
  | nil => rfl
  | cons w rest ih =>
    rw [update_variant_cons, get_variant_cons, get_variant_cons]
    by_cases hw : w.id = v.id
    · simp [hw, h, Ne.symm h, ih]
    · simp [hw, ih]

lemma get_update_eq {vs : List Variant} {v w : Variant}
    (hid : v.id = w.id) (h : ProductRepo.get_variant_by_id vs w.id = some w) :
    ProductRepo.get_variant_by_id (ProductRepo.update_variant vs v) w.id = some v := by
  induction vs with
  | nil => simp [get_variant_nil] at h
  | cons u rest ih =>
    rw [get_variant_cons] at h
    rw [update_variant_cons, get_variant_cons]
    by_cases hu : u.id = w.id
    · have huv : u.id = v.id := by rw [hu, hid]
      rw [if_pos huv, if_pos hid]
    · have huv : ¬ u.id = v.id := by rw [hid]; exact hu
      rw [if_neg huv, if_neg hu]
      exact ih (by rw [if_neg hu] at h; exact h)

lemma stock_update_found {vs : List Variant} {k : Nat} {w : Variant} (x : Int) (vid : Nat)
    (hg : ProductRepo.get_variant_by_id vs k = some w) :
    stock_of (ProductRepo.update_variant vs { w with stock_qty := x }) vid =
      if k = vid then some x else stock_of vs vid := by
  have hw : w.id = k := get_some_id hg
  by_cases hv : k = vid
  · subst hv
    have h1 : ProductRepo.get_variant_by_id vs w.id = some w := by rw [hw]; exact hg
    have h2 := get_update_eq (v := { w with stock_qty := x }) (w := w) rfl h1
    rw [if_pos rfl, stock_of, ← hw, h2]
    rfl
  · have hne : ({ w with stock_qty := x } : Variant).id ≠ vid := by
      show w.id ≠ vid
      rw [hw]; exact hv
    rw [if_neg hv, stock_of, stock_of, get_update_ne hne]

lemma stock_apply_inbound (items : List DocumentItem) :
    ∀ vs vid, stock_of (InventoryService.apply_inbound_items vs items) vid =
      (stock_of vs vid).map (fun q => q + items_sum items vid) := by
  induction items with
  | nil =>
    intro vs vid
    cases h : stock_of vs vid <;>
      simp [InventoryService.apply_inbound_items, items_sum, h]
  | cons i rest ih =>
    intro vs vid
    cases hg : ProductRepo.get_variant_by_id vs i.variant_id with
    | none =>
      rw [show InventoryService.apply_inbound_items vs (i :: rest) =
            InventoryService.apply_inbound_items vs rest by
          simp [InventoryService.apply_inbound_items, hg], ih]
      by_cases hv : i.variant_id = vid
      · have : stock_of vs vid = none := by rw [stock_of, ← hv, hg]; rfl
        simp [this]
      · have : items_sum (i :: rest) vid = items_sum rest vid := by
          simp [items_sum, hv]
        rw [this]
    | some w =>
      rw [show InventoryService.apply_inbound_items vs (i :: rest) =
            InventoryService.apply_inbound_items
              (ProductRepo.update_variant vs
                { w with stock_qty := w.stock_qty + i.quantity }) rest by
          simp [InventoryService.apply_inbound_items, hg], ih,
        stock_update_found _ _ hg]
      by_cases hv : i.variant_id = vid
      · have hs : stock_of vs vid = some w.stock_qty := by rw [stock_of, ← hv, hg]; rfl
        have ht : items_sum (i :: rest) vid = i.quantity + items_sum rest vid := by
          simp [items_sum, hv]
        rw [if_pos hv, hs, ht]
        simp [add_assoc]
      · have ht : items_sum (i :: rest) vid = items_sum rest vid := by
          simp [items_sum, hv]
        rw [if_neg hv, ht]

lemma stock_apply_outbound (items : List DocumentItem) :
    ∀ vs vid, stock_of (InventoryService.apply_outbound_items vs items) vid =
      (stock_of vs vid).map (fun q => q - items_sum items vid) := by
  induction items with
  | nil =>
    intro vs vid
    cases h : stock_of vs vid <;>
      simp [InventoryService.apply_outbound_items, items_sum, h]
  | cons i rest ih =>
    intro vs vid
    cases hg : ProductRepo.get_variant_by_id vs i.variant_id with
    | none =>
      rw [show InventoryService.apply_outbound_items vs (i :: rest) =
            InventoryService.apply_outbound_items vs rest by
          simp [InventoryService.apply_outbound_items, hg], ih]
      by_cases hv : i.variant_id = vid
      · have : stock_of vs vid = none := by rw [stock_of, ← hv, hg]; rfl
        simp [this]
      · have : items_sum (i :: rest) vid = items_sum rest vid := by
          simp [items_sum, hv]
        rw [this]
    | some w =>
      rw [show InventoryService.apply_outbound_items vs (i :: rest) =
            InventoryService.apply_outbound_items
              (ProductRepo.update_variant vs
                { w with stock_qty := w.stock_qty - i.quantity }) rest by
          simp [InventoryService.apply_outbound_items, hg], ih,
        stock_update_found _ _ hg]
      by_cases hv : i.variant_id = vid
      · have hs : stock_of vs vid = some w.stock_qty := by rw [stock_of, ← hv, hg]; rfl
        have ht : items_sum (i :: rest) vid = i.quantity + items_sum rest vid := by
          simp [items_sum, hv]
        rw [if_pos hv, hs, ht]
        simp [sub_sub]
      · have ht : items_sum (i :: rest) vid = items_sum rest vid := by
          simp [items_sum, hv]
        rw [if_neg hv, ht]

lemma outbound_precheck_some_of_bad {vs : List Variant} {item : DocumentItem}
    (hbad : ProductRepo.get_variant_by_id vs item.variant_id = none ∨
      ∃ v, ProductRepo.get_variant_by_id vs item.variant_id = some v ∧
        v.stock_qty < item.quantity) :
    ∀ items, item ∈ items →
      ∃ e, InventoryService.outbound_precheck vs items = some e ∧
        ((∃ m, e = .entityNotFoundError m) ∨ (∃ m, e = .outOfStockError m)) := by
  intro items
  induction items with
  | nil => intro hmem; cases hmem
  | cons i rest ih =>
    intro hmem
    cases hg : ProductRepo.get_variant_by_id vs i.variant_id with
    | none =>
      refine ⟨.entityNotFoundError ("變體 ID " ++ toString i.variant_id ++ " 不存在"),
        ?_, Or.inl ⟨_, rfl⟩⟩
      simp [InventoryService.outbound_precheck, hg]
    | some v =>
      by_cases hq : v.stock_qty < i.quantity
      · refine ⟨.outOfStockError
          ("庫存不足: " ++ v.display_name ++ " (庫存: " ++ toString v.stock_qty ++
           ", 需求: " ++ toString i.quantity ++ ")"), ?_, Or.inr ⟨_, rfl⟩⟩
        simp [InventoryService.outbound_precheck, hg, hq]
      · have hm : item ∈ rest := by
          rcases List.mem_cons.mp hmem with h | h
          · subst h
            rcases hbad with h0 | ⟨v', hv', hlt⟩
            · rw [hg] at h0; cases h0
            · rw [hg] at hv'
              obtain rfl := Option.some.inj hv'
              exact absurd hlt hq
          · exact h
        obtain ⟨e, he, hk⟩ := ih hm
        exact ⟨e, by simp [InventoryService.outbound_precheck, hg, hq, he], hk⟩

lemma outbound_precheck_all_sufficient {vs : List Variant} :
    ∀ items : List DocumentItem,
      (∀ item ∈ items, ∀ v, ProductRepo.get_variant_by_id vs item.variant_id = some v →
        item.quantity ≤ v.stock_qty) →
      ∀ e, InventoryService.outbound_precheck vs items = some e →
        ∃ m, e = .entityNotFoundError m := by
  intro items
  induction items with
  | nil => intro _ e he; simp [InventoryService.outbound_precheck] at he
  | cons i rest ih =>
    intro hs e he
    cases hg : ProductRepo.get_variant_by_id vs i.variant_id with
    | none =>
      simp [InventoryService.outbound_precheck, hg] at he
      exact ⟨_, he.symm⟩
    | some v =>
      have hq : ¬ v.stock_qty < i.quantity :=
        not_lt.mpr (hs i (List.mem_cons_self i rest) v hg)
      simp [InventoryService.outbound_precheck, hg, hq] at he
      exact ih (fun item hm => hs item (List.mem_cons_of_mem i hm)) e he

lemma outbound_precheck_all_exist {vs : List Variant} :
    ∀ items : List DocumentItem,
      (∀ item ∈ items, ∃ v, ProductRepo.get_variant_by_id vs item.variant_id = some v) →
      ∀ e, InventoryService.outbound_precheck vs items = some e →
        ∃ m, e = .outOfStockError m := by
  intro items
  induction items with
  | nil => intro _ e he; simp [InventoryService.outbound_precheck] at he
  | cons i rest ih =>
    intro hs e he
    obtain ⟨v, hg⟩ := hs i (List.mem_cons_self i rest)
    by_cases hq : v.stock_qty < i.quantity
    · simp [InventoryService.outbound_precheck, hg, hq] at he
      exact ⟨_, he.symm⟩
    · simp [InventoryService.outbound_precheck, hg, hq] at he
      exact ih (fun item hm => hs item (List.mem_cons_of_mem i hm)) e he

lemma adjust_items_ok_stock :
    ∀ (items : List DocumentItem) (vs vs' : List Variant),
      InventoryService.adjust_items vs items = (vs', none) →
      ∀ vid, stock_of vs' vid = (stock_of vs vid).map (fun q => q + items_sum items vid) := by
  intro items
  induction items with
  | nil =>
    intro vs vs' h vid
    obtain rfl : vs = vs' := congrArg Prod.fst h
    cases hs : stock_of vs vid <;> simp [items_sum, hs]
  | cons i rest ih =>
    intro vs vs' h vid
    cases hg : ProductRepo.get_variant_by_id vs i.variant_id with
    | none =>
      have h' : InventoryService.adjust_items vs rest = (vs', none) := by
        rw [← h]; simp [InventoryService.adjust_items, hg]
      rw [ih vs vs' h' vid]
      by_cases hv : i.variant_id = vid
      · have : stock_of vs vid = none := by rw [stock_of, ← hv, hg]; rfl
        simp [this]
      · have : items_sum (i :: rest) vid = items_sum rest vid := by
          simp [items_sum, hv]
        rw [this]
    | some w =>
      by_cases hneg : w.stock_qty + i.quantity < 0
      · exfalso
        have : InventoryService.adjust_items vs (i :: rest) =
            (vs, some (.businessRuleViolation
              ("調整後庫存不能為負數: " ++ w.display_name))) := by
          simp [InventoryService.adjust_items, hg, hneg]
        rw [this] at h
        exact Option.noConfusion (congrArg Prod.snd h)
      · have h' : InventoryService.adjust_items
            (ProductRepo.update_variant vs
              { w with stock_qty := w.stock_qty + i.quantity }) rest = (vs', none) := by
          rw [← h]; simp [InventoryService.adjust_items, hg, hneg]
        rw [ih _ vs' h' vid, stock_update_found _ _ hg]
        by_cases hv : i.variant_id = vid
        · have hs : stock_of vs vid = some w.stock_qty := by rw [stock_of, ← hv, hg]; rfl
          have ht : items_sum (i :: rest) vid = i.quantity + items_sum rest vid := by
            simp [items_sum, hv]
          rw [if_pos hv, hs, ht]
          simp [add_assoc]
        · have ht : items_sum (i :: rest) vid = items_sum rest vid := by
            simp [items_sum, hv]
          rw [if_neg hv, ht]

lemma adjust_items_error :
    ∀ (items : List DocumentItem) (vs vs' : List Variant) (e : WmsError),
      InventoryService.adjust_items vs items = (vs', some e) →
      ∃ pre item post v, items = pre ++ item :: post ∧
        InventoryService.adjust_items vs pre = (vs', none) ∧
        ProductRepo.get_variant_by_id vs' item.variant_id = some v ∧
        v.stock_qty + item.quantity < 0 ∧
        e = .businessRuleViolation ("調整後庫存不能為負數: " ++ v.display_name) := by
  intro items
  induction items with
  | nil =>
    intro vs vs' e h
    exact Option.noConfusion (congrArg Prod.snd h)
  | cons i rest ih =>
    intro vs vs' e h
    cases hg : ProductRepo.get_variant_by_id vs i.variant_id with
    | none =>
      have h' : InventoryService.adjust_items vs rest = (vs', some e) := by
        rw [← h]; simp [InventoryService.adjust_items, hg]
      obtain ⟨pre, item, post, v, h1, h2, h3, h4, h5⟩ := ih vs vs' e h'
      refine ⟨i :: pre, item, post, v, by rw [h1]; rfl, ?_, h3, h4, h5⟩
      rw [← h2]; simp [InventoryService.adjust_items, hg]
    | some w =>
      by_cases hneg : w.stock_qty + i.quantity < 0
      · have hthis : InventoryService.adjust_items vs (i :: rest) =
            (vs, some (.businessRuleViolation
              ("調整後庫存不能為負數: " ++ w.display_name))) := by
          simp [InventoryService.adjust_items, hg, hneg]
        rw [hthis] at h
        obtain rfl : vs = vs' := congrArg Prod.fst h
        have he : some (WmsError.businessRuleViolation
            ("調整後庫存不能為負數: " ++ w.display_name)) = some e :=
          congrArg Prod.snd h
        refine ⟨[], i, rest, w, rfl, rfl, hg, hneg, (Option.some.inj he).symm⟩
      · have h' : InventoryService.adjust_items
            (ProductRepo.update_variant vs
              { w with stock_qty := w.stock_qty + i.quantity }) rest = (vs', some e) := by
          rw [← h]; simp [InventoryService.adjust_items, hg, hneg]
        obtain ⟨pre, item, post, v, h1, h2, h3, h4, h5⟩ := ih _ vs' e h'
        refine ⟨i :: pre, item, post, v, by rw [h1]; rfl, ?_, h3, h4, h5⟩
        rw [← h2]; simp [InventoryService.adjust_items, hg, hneg]

lemma impact_sum_add_impact :
    ∀ (l : List (Nat × Int)) (k : Nat) (c : Int) (vid : Nat),
      impact_sum (InventoryService.add_impact l k c) vid =
        impact_sum l vid + (if k = vid then c else 0) := by
  intro l
  induction l with
  | nil =>
    intro k c vid
    by_cases hk : k = vid <;> simp [InventoryService.add_impact, impact_sum, hk]
  | cons p rest ih =>
    intro k c vid
    obtain ⟨k', c'⟩ := p
    by_cases hkk : k' = k
    · subst hkk
      by_cases hk : k' = vid <;>
        simp [InventoryService.add_impact, impact_sum, hk] <;> omega
    · have : InventoryService.add_impact ((k', c') :: rest) k c =
          (k', c') :: InventoryService.add_impact rest k c := by
        simp [InventoryService.add_impact, hkk]
      rw [this]
      by_cases hk : k' = vid <;> simp [impact_sum, hk, ih] <;> omega

lemma impact_sum_foldl (t : String) :
    ∀ (items : List DocumentItem) (acc : List (Nat × Int)) (vid : Nat),
      impact_sum
        (List.foldl
          (fun a i => InventoryService.add_impact a i.variant_id
            (InventoryService.reversal_change t i.quantity)) acc items) vid =
        impact_sum acc vid + reversal_sum items t vid := by
  intro items
  induction items with
  | nil => intro acc vid; simp [reversal_sum]
  | cons i rest ih =>
    intro acc vid
    rw [List.foldl_cons, ih, impact_sum_add_impact]
    by_cases hk : i.variant_id = vid <;> simp [reversal_sum, hk] <;> omega

lemma impact_sum_compute (doc : Document) (vid : Nat) :
    impact_sum (InventoryService.compute_impacts doc) vid =
      reversal_sum doc.items doc.doc_type vid := by
  have := impact_sum_foldl doc.doc_type doc.items [] vid
  simpa [InventoryService.compute_impacts, impact_sum] using this

lemma keys_add_impact :
    ∀ (l : List (Nat × Int)) (k : Nat) (c : Int),
      (InventoryService.add_impact l k c).map Prod.fst =
        if k ∈ l.map Prod.fst then l.map Prod.fst
        else l.map Prod.fst ++ [k] := by
  intro l
  induction l with
  | nil => intro k c; simp [InventoryService.add_impact]
  | cons p rest ih =>
    intro k c
    obtain ⟨k', c'⟩ := p
    by_cases hkk : k' = k
    · subst hkk
      simp [InventoryService.add_impact]
    · have hne : ¬ k = k' := fun h => hkk h.symm
      simp only [InventoryService.add_impact, beq_iff_eq, hkk, if_false, List.map_cons,
        List.mem_cons, hne, false_or]
      rw [ih]
      by_cases hm : k ∈ rest.map Prod.fst <;> simp [hm]

lemma keys_compute_impacts_nodup (doc : Document) :
    ((InventoryService.compute_impacts doc).map Prod.fst).Nodup := by
  suffices h : ∀ (items : List DocumentItem) (acc : List (Nat × Int)),
      (acc.map Prod.fst).Nodup →
      ((List.foldl
        (fun a i => InventoryService.add_impact a i.variant_id
          (InventoryService.reversal_change doc.doc_type i.quantity)) acc items).map
        Prod.fst).Nodup by
    exact h doc.items [] (by simp)
  intro items
  induction items with
  | nil => intro acc hacc; simpa using hacc
  | cons i rest ih =>
    intro acc hacc
    rw [List.foldl_cons]
    refine ih _ ?_
    rw [keys_add_impact]
    by_cases hm : i.variant_id ∈ acc.map Prod.fst
    · simpa [hm] using hacc
    · simp [hm, List.nodup_append, hacc]

lemma impact_sum_of_not_mem :
    ∀ (l : List (Nat × Int)) (vid : Nat), vid ∉ l.map Prod.fst → impact_sum l vid = 0 := by
  intro l
  induction l with
  | nil => intro vid _; rfl
  | cons p rest ih =>
    intro vid hv
    obtain ⟨k, c⟩ := p
    have hk : ¬ k = vid := by
      intro h; exact hv (by simp [h])
    have hr : vid ∉ rest.map Prod.fst := fun h => hv (by simp [h])
    simp [impact_sum, hk, ih vid hr]

lemma mem_impact_sum :
    ∀ (l : List (Nat × Int)) (vid : Nat) (c : Int),
      (l.map Prod.fst).Nodup → (vid, c) ∈ l → impact_sum l vid = c := by
  intro l
  induction l with
  | nil => intro vid c _ hm; cases hm
  | cons p rest ih =>
    intro vid c hnd hm
    obtain ⟨k', c'⟩ := p
    rw [List.map_cons] at hnd
    rcases List.mem_cons.mp hm with h | h
    · obtain ⟨h1, h2⟩ := Prod.mk.inj h
      subst h1
      subst h2
      have hk : vid ∉ rest.map Prod.fst := (List.nodup_cons.mp hnd).1
      simp [impact_sum, impact_sum_of_not_mem rest vid hk]
    · have hk' : k' ∉ rest.map Prod.fst := (List.nodup_cons.mp hnd).1
      have hvk : ¬ k' = vid := by
        intro hkv
        subst hkv
        exact hk' (List.mem_map.mpr ⟨(k', c), h, rfl⟩)
      have hnd' : (rest.map Prod.fst).Nodup := (List.nodup_cons.mp hnd).2
      simp [impact_sum, hvk, ih vid c hnd' h]

lemma mem_keys_compute_impacts (doc : Document) (vid : Nat) :
    vid ∈ (InventoryService.compute_impacts doc).map Prod.fst →
      ∃ item ∈ doc.items, item.variant_id = vid := by
  suffices h : ∀ (items : List DocumentItem) (acc : List (Nat × Int)),
      vid ∈ ((List.foldl
        (fun a i => InventoryService.add_impact a i.variant_id
          (InventoryService.reversal_change doc.doc_type i.quantity)) acc items).map
        Prod.fst) →
      vid ∈ acc.map Prod.fst ∨ ∃ item ∈ items, item.variant_id = vid by
    intro hv
    rcases h doc.items [] hv with h0 | h0
    · simp at h0
    · exact h0
  intro items
  induction items with
  | nil => intro acc hv; exact Or.inl (by simpa using hv)
  | cons i rest ih =>
    intro acc hv
    rw [List.foldl_cons] at hv
    rcases ih _ hv with h0 | h0
    · rw [keys_add_impact] at h0
      by_cases hm : i.variant_id ∈ acc.map Prod.fst
      · rw [if_pos hm] at h0
        exact Or.inl h0
      · rw [if_neg hm] at h0
        rcases List.mem_append.mp h0 with h1 | h1
        · exact Or.inl h1
        · exact Or.inr ⟨i, List.mem_cons_self i rest, (List.mem_singleton.mp h1).symm⟩
    · obtain ⟨item, hmem, hid⟩ := h0
      exact Or.inr ⟨item, List.mem_cons_of_mem i hmem, hid⟩

lemma strict_check_skip (vs : List Variant) (vid : Nat) (c : Int)
    (rest : List (Nat × Int)) (h : 0 ≤ c) :
    InventoryService.strict_check vs ((vid, c) :: rest) =
      InventoryService.strict_check vs rest := by
  simp [InventoryService.strict_check, not_lt.mpr h]

lemma strict_check_none {vs : List Variant} :
    ∀ l : List (Nat × Int),
      (∀ p ∈ l, p.2 < 0 → ∀ v, ProductRepo.get_variant_by_id vs p.1 = some v →
        0 ≤ v.stock_qty + p.2) →
      InventoryService.strict_check vs l = none := by
  intro l
  induction l with
  | nil => intro _; rfl
  | cons p rest ih =>
    intro hall
    obtain ⟨k, c⟩ := p
    have hrest := ih (fun q hq => hall q (List.mem_cons_of_mem _ hq))
    by_cases hc : c < 0
    · cases hg : ProductRepo.get_variant_by_id vs k with
      | none => simp [InventoryService.strict_check, hc, hg, hrest]
      | some v =>
        have h0 : 0 ≤ v.stock_qty + c :=
          hall (k, c) (List.mem_cons_self _ _) hc v hg
        simp [InventoryService.strict_check, hc, hg, not_lt.mpr h0, hrest]
    · simp [InventoryService.strict_check, hc, hrest]

lemma strict_check_some_of_fail {vs : List Variant} {vid : Nat} {c : Int} {v : Variant}
    (hc : c < 0) (hg : ProductRepo.get_variant_by_id vs vid = some v)
    (hf : v.stock_qty + c < 0) :
    ∀ l : List (Nat × Int), (vid, c) ∈ l →
      ∃ m, InventoryService.strict_check vs l = some (.businessRuleViolation m) := by
  intro l
  induction l with
  | nil => intro hm; cases hm
  | cons p rest ih =>
    intro hm
    obtain ⟨k', c'⟩ := p
    rcases List.mem_cons.mp hm with h | h
    · obtain ⟨h1, h2⟩ := Prod.mk.inj h
      refine ⟨"庫存不足，請先補單並備註。\n商品: " ++ v.display_name ++ "\n當前: " ++
        toString v.stock_qty ++ ", 回滾需扣: " ++ toString c'.natAbs, ?_⟩
      simp [InventoryService.strict_check, ← h1, ← h2, hc, hg, hf]
    · obtain ⟨m, hm'⟩ := ih h
      by_cases hc' : c' < 0
      · cases hg' : ProductRepo.get_variant_by_id vs k' with
        | none =>
          exact ⟨m, by simp [InventoryService.strict_check, hc', hg', hm']⟩
        | some w =>
          by_cases hw : w.stock_qty + c' < 0
          · refine ⟨"庫存不足，請先補單並備註。\n商品: " ++ w.display_name ++ "\n當前: " ++
              toString w.stock_qty ++ ", 回滾需扣: " ++ toString c'.natAbs, ?_⟩
            simp [InventoryService.strict_check, hc', hg', hw]
          · exact ⟨m, by simp [InventoryService.strict_check, hc', hg', hw, hm']⟩
      · exact ⟨m, by simp [InventoryService.strict_check, hc', hm']⟩

lemma stock_apply_impacts :
    ∀ (l : List (Nat × Int)) (vs : List Variant) (vid : Nat),
      stock_of (InventoryService.apply_impacts vs l) vid =
        (stock_of vs vid).map (fun q => q + impact_sum l vid) := by
  intro l
  induction l with
  | nil =>
    intro vs vid
    cases hs : stock_of vs vid <;> simp [InventoryService.apply_impacts, impact_sum, hs]
  | cons p rest ih =>
    intro vs vid
    obtain ⟨k, c⟩ := p
    by_cases hc0 : c = 0
    · subst hc0
      rw [show InventoryService.apply_impacts vs ((k, 0) :: rest) =
            InventoryService.apply_impacts vs rest by
          simp [InventoryService.apply_impacts], ih]
      have : impact_sum ((k, (0 : Int)) :: rest) vid = impact_sum rest vid := by
        by_cases hk : k = vid <;> simp [impact_sum, hk]
      rw [this]
    · have hcb : ¬ ((c == 0) = true) := by simpa using hc0
      cases hg : ProductRepo.get_variant_by_id vs k with
      | none =>
        rw [show InventoryService.apply_impacts vs ((k, c) :: rest) =
              InventoryService.apply_impacts vs rest by
            simp [InventoryService.apply_impacts, hcb, hg], ih]
        by_cases hk : k = vid
        · have : stock_of vs vid = none := by rw [stock_of, ← hk, hg]; rfl
          simp [this]
        · have : impact_sum ((k, c) :: rest) vid = impact_sum rest vid := by
            simp [impact_sum, hk]
          rw [this]
      | some w =>
        rw [show InventoryService.apply_impacts vs ((k, c) :: rest) =
              InventoryService.apply_impacts
                (ProductRepo.update_variant vs
                  { w with stock_qty := w.stock_qty + c }) rest by
            simp [InventoryService.apply_impacts, hcb, hg], ih,
          stock_update_found _ _ hg]
        by_cases hk : k = vid
        · have hs : stock_of vs vid = some w.stock_qty := by rw [stock_of, ← hk, hg]; rfl
          have ht : impact_sum ((k, c) :: rest) vid = c + impact_sum rest vid := by
            simp [impact_sum, hk]
          rw [if_pos hk, hs, ht]
          simp [add_assoc]
        · have ht : impact_sum ((k, c) :: rest) vid = impact_sum rest vid := by
            simp [impact_sum, hk]
          rw [if_neg hk, ht]

lemma apply_impacts_all_missing :
    ∀ (l : List (Nat × Int)) (vs : List Variant),
      (∀ p ∈ l, ProductRepo.get_variant_by_id vs p.1 = none) →
      InventoryService.apply_impacts vs l = vs := by
  intro l
  induction l with
  | nil => intro vs _; rfl
  | cons p rest ih =>
    intro vs hall
    obtain ⟨k, c⟩ := p
    have hg : ProductRepo.get_variant_by_id vs k = none :=
      hall (k, c) (List.mem_cons_self _ _)
    have hrest := ih vs (fun q hq => hall q (List.mem_cons_of_mem _ hq))
    by_cases hc0 : c = 0
    · subst hc0; simp [InventoryService.apply_impacts, hrest]
    · have hcb : ¬ ((c == 0) = true) := by simpa using hc0
      simp [InventoryService.apply_impacts, hcb, hg, hrest]

lemma get_document_append_fresh :
    ∀ (ds : List Document) (x : Document), (∀ d ∈ ds, d.id ≠ x.id) →
      DocumentRepo.get_document_by_id (ds ++ [x]) x.id = some x := by
  intro ds
  induction ds with
  | nil =>
    intro x _
    simp [DocumentRepo.get_document_by_id]
  | cons d rest ih =>
    intro x h
    have hd : ¬ ((d.id == x.id) = true) := by
      simpa using h d (List.mem_cons_self d rest)
    have := ih x (fun d' hd' => h d' (List.mem_cons_of_mem d hd'))
    simpa [DocumentRepo.get_document_by_id, List.find?_cons_of_neg, hd] using this

lemma reversal_sum_inbound :
    ∀ (items : List DocumentItem) (vid : Nat),
      reversal_sum items "INBOUND" vid = - items_sum items vid := by
  intro items
  induction items with
  | nil => intro vid; simp [reversal_sum, items_sum]
  | cons i rest ih =>
    intro vid
    by_cases hv : i.variant_id = vid <;>
      simp [reversal_sum, items_sum, InventoryService.reversal_change, hv, ih] <;> omega

lemma create_inbound_eq {s : State} {document : Document}
    (h : document.doc_type = "INBOUND") :
    InventoryService.create_inbound_order s document =
      ({ variants := InventoryService.apply_inbound_items s.variants document.items,
         documents := s.documents ++ [{ document with id := s.next_doc_id }],
         next_doc_id := s.next_doc_id + 1 },
       .ok { document with id := s.next_doc_id }) := by
  simp [InventoryService.create_inbound_order, h, DocumentRepo.add_document]

lemma create_outbound_eq_err {s : State} {document : Document} {e : WmsError}
    (h : document.doc_type = "OUTBOUND")
    (he : InventoryService.outbound_precheck s.variants document.items = some e) :
    InventoryService.create_outbound_order s document = (s, .error e) := by
  simp [InventoryService.create_outbound_order, h, he]

lemma create_outbound_eq_ok {s : State} {document : Document}
    (h : document.doc_type = "OUTBOUND")
    (hn : InventoryService.outbound_precheck s.variants document.items = none) :
    InventoryService.create_outbound_order s document =
      ({ variants := InventoryService.apply_outbound_items s.variants document.items,
         documents := s.documents ++ [{ document with id := s.next_doc_id }],
         next_doc_id := s.next_doc_id + 1 },
       .ok { document with id := s.next_doc_id }) := by
  simp [InventoryService.create_outbound_order, h, hn, DocumentRepo.add_document]

lemma create_adjustment_eq_err {s : State} {document : Document}
    {vs : List Variant} {e : WmsError}
    (h : document.doc_type = "ADJUST")
    (he : InventoryService.adjust_items s.variants document.items = (vs, some e)) :
    InventoryService.create_adjustment_order s document =
      ({ variants := vs,
         documents := s.documents ++ [{ document with id := s.next_doc_id }],
         next_doc_id := s.next_doc_id + 1 },
       .error e) := by
  simp [InventoryService.create_adjustment_order, h, DocumentRepo.add_document]
  rw [show ({ document with id := s.next_doc_id } : Document).items = document.items from rfl,
    he]

lemma create_adjustment_eq_ok {s : State} {document : Document} {vs : List Variant}
    (h : document.doc_type = "ADJUST")
    (hn : InventoryService.adjust_items s.variants document.items = (vs, none)) :
    InventoryService.create_adjustment_order s document =
      ({ variants := vs,
         documents := s.documents ++ [{ document with id := s.next_doc_id }],
         next_doc_id := s.next_doc_id + 1 },
       .ok { document with id := s.next_doc_id }) := by
  simp [InventoryService.create_adjustment_order, h, DocumentRepo.add_document]
  rw [show ({ document with id := s.next_doc_id } : Document).items = document.items from rfl,
    hn]

lemma delete_document_eq_err {s : State} {doc_id : Nat} {doc : Document} {e : WmsError}
    (hd : DocumentRepo.get_document_by_id s.documents doc_id = some doc)
    (hc : InventoryService.strict_check s.variants
      (InventoryService.compute_impacts doc) = some e) :
    InventoryService.delete_document s doc_id = (s, .error e) := by
  simp [InventoryService.delete_document, hd, hc]

lemma delete_document_eq_ok {s : State} {doc_id : Nat} {doc : Document}
    (hd : DocumentRepo.get_document_by_id s.documents doc_id = some doc)
    (hc : InventoryService.strict_check s.variants
      (InventoryService.compute_impacts doc) = none) :
    InventoryService.delete_document s doc_id =
      ({ s with
          variants := InventoryService.apply_impacts s.variants
            (InventoryService.compute_impacts doc),
          documents := DocumentRepo.delete_document s.documents doc_id }, .ok ()) := by
  simp [InventoryService.delete_document, hd, hc]

/-- Claim C1: the claim asserts that stock_qty is never negative after any
accepted engine operation, including OUTBOUND documents with two or more
items on the same variant.  The code violates this: with stock 5, an
OUTBOUND document holding two items of quantity 3 on the same variant
passes the per-item pre-check (each 3 ≤ 5) and is accepted, and the
commit loop drives the variant's stock to -1. -/
theorem claim1_outbound_duplicate_items_drive_stock_negative :
    (InventoryService.create_outbound_order
      ⟨[⟨1, 1, "M", "Red", "S", 5, 5⟩], [], 1⟩
      ⟨0, "OUTBOUND", [⟨1, 3⟩, ⟨1, 3⟩]⟩).2 =
        .ok ⟨1, "OUTBOUND", [⟨1, 3⟩, ⟨1, 3⟩]⟩ ∧
    stock_of (InventoryService.create_outbound_order
      ⟨[⟨1, 1, "M", "Red", "S", 5, 5⟩], [], 1⟩
      ⟨0, "OUTBOUND", [⟨1, 3⟩, ⟨1, 3⟩]⟩).1.variants 1 = some (-1) := by
  exact ⟨rfl, rfl⟩

/-- Claim C6, counterexample: deleting an INBOUND document whose single
item references variant 99, absent from the Variant Store, succeeds with
no error and no stock effect — the deletion silently skips the missing
variant instead of treating it as a hard failure, refuting the claim. -/
theorem claim6_counterexample_delete_skips_missing_variant :
    InventoryService.delete_document ⟨[], [⟨7, "INBOUND", [⟨99, 5⟩]⟩], 8⟩ 7 =
      (⟨[], [], 8⟩, .ok ()) := by
  rfl

/-- Claim C6 (amended): delete_document silently skips a missing variant,
exactly like the INBOUND path: a variant absent from the Variant Store is
skipped both by the strict pre-check (continue) and by the apply phase,
and when every referenced variant is missing the deletion completes
successfully, removing the document and changing no variant. -/
theorem claim6_amended_delete_silently_skips_missing
    (s : State) (doc_id : Nat) (doc : Document)
    (hd : DocumentRepo.get_document_by_id s.documents doc_id = some doc)
    (hmiss : ∀ item ∈ doc.items,
      ProductRepo.get_variant_by_id s.variants item.variant_id = none) :
    InventoryService.delete_document s doc_id =
      ({ s with documents := DocumentRepo.delete_document s.documents doc_id },
       .ok ()) := by
  have hmiss' : ∀ p ∈ InventoryService.compute_impacts doc,
      ProductRepo.get_variant_by_id s.variants p.1 = none := by
    intro p hp
    have hk : p.1 ∈ (InventoryService.compute_impacts doc).map Prod.fst :=
      List.mem_map.mpr ⟨p, hp, rfl⟩
    obtain ⟨item, hmem, hid⟩ := mem_keys_compute_impacts doc p.1 hk
    rw [← hid]
    exact hmiss item hmem
  have hc : InventoryService.strict_check s.variants
      (InventoryService.compute_impacts doc) = none := by
    refine strict_check_none _ ?_
    intro p hp _ v hv
    rw [hmiss' p hp] at hv
    cases hv
  rw [delete_document_eq_ok hd hc,
    apply_impacts_all_missing (InventoryService.compute_impacts doc) s.variants hmiss']

/-- Claim C6 (amended), witness at a concrete input: an INBOUND document
referencing only the missing variant 99 is deleted without error. -/
theorem claim6_amended_witness :
    InventoryService.delete_document ⟨[], [⟨7, "INBOUND", [⟨99, 5⟩]⟩], 8⟩ 7 =
      ({ (⟨[], [⟨7, "INBOUND", [⟨99, 5⟩]⟩], 8⟩ : State) with
          documents := DocumentRepo.delete_document [⟨7, "INBOUND", [⟨99, 5⟩]⟩] 7 },
       .ok ()) :=
  claim6_amended_delete_silently_skips_missing
    ⟨[], [⟨7, "INBOUND", [⟨99, 5⟩]⟩], 8⟩ 7 ⟨7, "INBOUND", [⟨99, 5⟩]⟩
    (by decide) (by decide)

/-- Claim C8: each creation operation rejects a document whose type does
not match the operation, returning the original state unchanged (no
document persisted, no stock changed) with a BusinessRuleViolation. -/
theorem claim8_type_mismatch_rejected_before_store_access
    (s : State) (document : Document) :
    (document.doc_type ≠ "INBOUND" →
      InventoryService.create_inbound_order s document =
        (s, .error (.businessRuleViolation "單據類型必須為 INBOUND"))) ∧
    (document.doc_type ≠ "OUTBOUND" →
      InventoryService.create_outbound_order s document =
        (s, .error (.businessRuleViolation "單據類型必須為 OUTBOUND"))) ∧
    (document.doc_type ≠ "ADJUST" →
      InventoryService.create_adjustment_order s document =
        (s, .error (.businessRuleViolation "單據類型必須為 ADJUST"))) := by
  refine ⟨fun h => ?_, fun h => ?_, fun h => ?_⟩
  · simp only [InventoryService.create_inbound_order]
    rw [if_pos h]
  · simp only [InventoryService.create_outbound_order]
    rw [if_pos h]
  · simp only [InventoryService.create_adjustment_order]
    rw [if_pos h]

/-- Claim C8, witness: a document of type "FOO" is rejected by all three
creation operations, each leaving the state untouched. -/
theorem claim8_witness :
    InventoryService.create_inbound_order ⟨[], [], 0⟩ ⟨0, "FOO", []⟩ =
      (⟨[], [], 0⟩, .error (.businessRuleViolation "單據類型必須為 INBOUND")) ∧
    InventoryService.create_outbound_order ⟨[], [], 0⟩ ⟨0, "FOO", []⟩ =
      (⟨[], [], 0⟩, .error (.businessRuleViolation "單據類型必須為 OUTBOUND")) ∧
    InventoryService.create_adjustment_order ⟨[], [], 0⟩ ⟨0, "FOO", []⟩ =
      (⟨[], [], 0⟩, .error (.businessRuleViolation "單據類型必須為 ADJUST")) :=
  ⟨(claim8_type_mismatch_rejected_before_store_access ⟨[], [], 0⟩ ⟨0, "FOO", []⟩).1
      (by decide),
   (claim8_type_mismatch_rejected_before_store_access ⟨[], [], 0⟩ ⟨0, "FOO", []⟩).2.1
      (by decide),
   (claim8_type_mismatch_rejected_before_store_access ⟨[], [], 0⟩ ⟨0, "FOO", []⟩).2.2
      (by decide)⟩

/-- Claim C10: in create_adjustment_order an item whose referenced
variant does not exist is silently skipped: the document still persists,
no stock mutation occurs for that item, no error is raised for it, and
processing continues with the remaining items. -/
theorem claim10_adjustment_skips_missing_variant
    (s : State) (document : Document) (item : DocumentItem)
    (rest : List DocumentItem)
    (h : document.doc_type = "ADJUST")
    (hitems : document.items = item :: rest)
    (hmiss : ProductRepo.get_variant_by_id s.variants item.variant_id = none) :
    (InventoryService.create_adjustment_order s document).1.documents =
      s.documents ++ [{ document with id := s.next_doc_id }] ∧
    (InventoryService.create_adjustment_order s document).1.variants =
      (InventoryService.adjust_items s.variants rest).1 ∧
    ((InventoryService.adjust_items s.variants rest).2 = none →
      (InventoryService.create_adjustment_order s document).2 =
        .ok { document with id := s.next_doc_id }) ∧
    (∀ e, (InventoryService.adjust_items s.variants rest).2 = some e →
      (InventoryService.create_adjustment_order s document).2 = .error e) := by
  have hskip : InventoryService.adjust_items s.variants document.items =
      InventoryService.adjust_items s.variants rest := by
    rw [hitems]
    simp [InventoryService.adjust_items, hmiss]
  cases hr : InventoryService.adjust_items s.variants rest with
  | mk vs r =>
    cases r with
    | none =>
      rw [create_adjustment_eq_ok h (hskip.trans hr)]
      exact ⟨rfl, rfl, fun _ => rfl, fun e he => Option.noConfusion he⟩
    | some e0 =>
      rw [create_adjustment_eq_err h (hskip.trans hr)]
      refine ⟨rfl, rfl, fun hn => Option.noConfusion hn, fun e he => ?_⟩
      obtain rfl := Option.some.inj he
      rfl

/-- Claim C10, witness: adjusting by a single item on the missing variant
99 persists the document, changes no stock and raises no error. -/
theorem claim10_witness :
    (InventoryService.create_adjustment_order ⟨[], [], 0⟩
        ⟨0, "ADJUST", [⟨99, 5⟩]⟩).1.documents =
      [] ++ [{ (⟨0, "ADJUST", [⟨99, 5⟩]⟩ : Document) with id := 0 }] ∧
    (InventoryService.create_adjustment_order ⟨[], [], 0⟩
        ⟨0, "ADJUST", [⟨99, 5⟩]⟩).1.variants =
      (InventoryService.adjust_items [] []).1 ∧
    ((InventoryService.adjust_items [] []).2 = none →
      (InventoryService.create_adjustment_order ⟨[], [], 0⟩
          ⟨0, "ADJUST", [⟨99, 5⟩]⟩).2 =
        .ok { (⟨0, "ADJUST", [⟨99, 5⟩]⟩ : Document) with id := 0 }) ∧
    (∀ e, (InventoryService.adjust_items [] []).2 = some e →
      (InventoryService.create_adjustment_order ⟨[], [], 0⟩
          ⟨0, "ADJUST", [⟨99, 5⟩]⟩).2 = .error e) :=
  claim10_adjustment_skips_missing_variant ⟨[], [], 0⟩ ⟨0, "ADJUST", [⟨99, 5⟩]⟩
    ⟨99, 5⟩ [] (by decide) (by decide) (by decide)

/-- Claim C2: an OUTBOUND document containing a bad item (missing variant
or quantity above current stock) is rejected with the state returned
unchanged — no stock mutated, no document persisted; the error kind is
EntityNotFound or OutOfStock, and specifically OutOfStock when every
referenced variant exists, EntityNotFound when every existing referenced
variant has sufficient stock (so the first offending item is a missing
one). -/
theorem claim2_outbound_failure_is_atomic :
    (∀ (s : State) (document : Document) (item : DocumentItem),
      document.doc_type = "OUTBOUND" → item ∈ document.items →
      (ProductRepo.get_variant_by_id s.variants item.variant_id = none ∨
        ∃ v, ProductRepo.get_variant_by_id s.variants item.variant_id = some v ∧
          v.stock_qty < item.quantity) →
      ∃ e, InventoryService.create_outbound_order s document = (s, .error e) ∧
        ((∃ m, e = .entityNotFoundError m) ∨ (∃ m, e = .outOfStockError m))) ∧
    (∀ (s : State) (document : Document),
      document.doc_type = "OUTBOUND" →
      (∀ item ∈ document.items,
        ∃ v, ProductRepo.get_variant_by_id s.variants item.variant_id = some v) →
      (∃ item ∈ document.items,
        ∃ v, ProductRepo.get_variant_by_id s.variants item.variant_id = some v ∧
          v.stock_qty < item.quantity) →
      ∃ m, InventoryService.create_outbound_order s document =
        (s, .error (.outOfStockError m))) ∧
    (∀ (s : State) (document : Document),
      document.doc_type = "OUTBOUND" →
      (∃ item ∈ document.items,
        ProductRepo.get_variant_by_id s.variants item.variant_id = none) →
      (∀ item ∈ document.items, ∀ v,
        ProductRepo.get_variant_by_id s.variants item.variant_id = some v →
        item.quantity ≤ v.stock_qty) →
      ∃ m, InventoryService.create_outbound_order s document =
        (s, .error (.entityNotFoundError m))) := by
  refine ⟨?_, ?_, ?_⟩
  · intro s document item ht hmem hbad
    obtain ⟨e, he, hk⟩ := outbound_precheck_some_of_bad hbad document.items hmem
    exact ⟨e, create_outbound_eq_err ht he, hk⟩
  · intro s document ht hall ⟨item, hmem, v, hg, hlt⟩
    obtain ⟨e, he, _⟩ :=
      outbound_precheck_some_of_bad (Or.inr ⟨v, hg, hlt⟩) document.items hmem
    obtain ⟨m, rfl⟩ := outbound_precheck_all_exist document.items hall e he
    exact ⟨m, create_outbound_eq_err ht he⟩
  · intro s document ht ⟨item, hmem, hg⟩ hsuff
    obtain ⟨e, he, _⟩ :=
      outbound_precheck_some_of_bad (Or.inl hg) document.items hmem
    obtain ⟨m, rfl⟩ := outbound_precheck_all_sufficient document.items hsuff e he
    exact ⟨m, create_outbound_eq_err ht he⟩

/-- Claim C2, witness: the spec's scenario (stock 10, demand 12) fails
with OutOfStock and leaves the state unchanged, and a document on the
missing variant 99 fails with EntityNotFound, likewise unchanged. -/
theorem claim2_witness :
    (∃ m, InventoryService.create_outbound_order
        ⟨[⟨1, 1, "M", "Red", "S", 10, 5⟩], [], 1⟩ ⟨0, "OUTBOUND", [⟨1, 12⟩]⟩ =
      (⟨[⟨1, 1, "M", "Red", "S", 10, 5⟩], [], 1⟩, .error (.outOfStockError m))) ∧
    (∃ m, InventoryService.create_outbound_order
        ⟨[⟨1, 1, "M", "Red", "S", 10, 5⟩], [], 1⟩ ⟨0, "OUTBOUND", [⟨99, 1⟩]⟩ =
      (⟨[⟨1, 1, "M", "Red", "S", 10, 5⟩], [], 1⟩, .error (.entityNotFoundError m))) :=
  ⟨claim2_outbound_failure_is_atomic.2.1
      ⟨[⟨1, 1, "M", "Red", "S", 10, 5⟩], [], 1⟩ ⟨0, "OUTBOUND", [⟨1, 12⟩]⟩
      (by decide)
      (by intro item hmem
          refine ⟨⟨1, 1, "M", "Red", "S", 10, 5⟩, ?_⟩
          cases hmem with
          | head => rfl
          | tail _ h => cases h)
      ⟨⟨1, 12⟩, by decide, ⟨1, 1, "M", "Red", "S", 10, 5⟩, rfl, by decide⟩,
   claim2_outbound_failure_is_atomic.2.2
      ⟨[⟨1, 1, "M", "Red", "S", 10, 5⟩], [], 1⟩ ⟨0, "OUTBOUND", [⟨99, 1⟩]⟩
      (by decide)
      ⟨⟨99, 1⟩, by decide, rfl⟩
      (by intro item hmem v hv
          cases hmem with
          | head =>
            rw [show ProductRepo.get_variant_by_id
                [⟨1, 1, "M", "Red", "S", 10, 5⟩] 99 = none from rfl] at hv
            cases hv
          | tail _ h => cases h)⟩

/-- Claim C4: compute_impacts records, for every variant, the sum over
the document's items of the reversal delta (-q for INBOUND, +q for
OUTBOUND, -q for ADJUST), with items on the same variant merged into a
single entry (the key list has no duplicates); in particular an OUTBOUND
document with two items of quantities 3 and 4 on one variant yields the
single impact entry (vid, 7). -/
theorem claim4_net_impact_aggregation :
    (∀ (doc : Document) (vid : Nat),
      impact_sum (InventoryService.compute_impacts doc) vid =
        reversal_sum doc.items doc.doc_type vid) ∧
    (∀ doc : Document,
      ((InventoryService.compute_impacts doc).map Prod.fst).Nodup) ∧
    (∀ vid : Nat,
      InventoryService.compute_impacts ⟨1, "OUTBOUND", [⟨vid, 3⟩, ⟨vid, 4⟩]⟩ =
        [(vid, 7)]) := by
  refine ⟨impact_sum_compute, keys_compute_impacts_nodup, fun vid => ?_⟩
  show InventoryService.add_impact
      (InventoryService.add_impact [] vid (InventoryService.reversal_change "OUTBOUND" 3))
      vid (InventoryService.reversal_change "OUTBOUND" 4) = [(vid, 7)]
  simp [InventoryService.add_impact, InventoryService.reversal_change]

/-- Claim C7: create_inbound_order on an INBOUND document persists the
document and returns it, and every variant's stock rises by exactly the
sum of the quantities of the document's items referencing it; an item on
a missing variant is skipped (the variant stays absent) while the
document still persists. -/
theorem claim7_inbound_increases_exactly (s : State) (document : Document)
    (h : document.doc_type = "INBOUND") :
    ∃ saved,
      (InventoryService.create_inbound_order s document).2 = .ok saved ∧
      (InventoryService.create_inbound_order s document).1.documents =
        s.documents ++ [saved] ∧
      ∀ vid, stock_of (InventoryService.create_inbound_order s document).1.variants vid =
        (stock_of s.variants vid).map (fun q => q + items_sum document.items vid) := by
  refine ⟨{ document with id := s.next_doc_id }, ?_, ?_, ?_⟩
  · rw [create_inbound_eq h]
  · rw [create_inbound_eq h]
  · intro vid
    rw [create_inbound_eq h]
    exact stock_apply_inbound document.items s.variants vid

/-- Claim C7, witness: the spec's scenario — stock 10, INBOUND quantity 5
— persists the document and yields stock 15. -/
theorem claim7_witness :
    ∃ saved,
      (InventoryService.create_inbound_order
        ⟨[⟨1, 1, "M", "Red", "S", 10, 5⟩], [], 1⟩ ⟨0, "INBOUND", [⟨1, 5⟩]⟩).2 =
          .ok saved ∧
      (InventoryService.create_inbound_order
        ⟨[⟨1, 1, "M", "Red", "S", 10, 5⟩], [], 1⟩ ⟨0, "INBOUND", [⟨1, 5⟩]⟩).1.documents =
          [] ++ [saved] ∧
      ∀ vid, stock_of (InventoryService.create_inbound_order
        ⟨[⟨1, 1, "M", "Red", "S", 10, 5⟩], [], 1⟩
        ⟨0, "INBOUND", [⟨1, 5⟩]⟩).1.variants vid =
          (stock_of [⟨1, 1, "M", "Red", "S", 10, 5⟩] vid).map
            (fun q => q + items_sum [⟨1, 5⟩] vid) :=
  claim7_inbound_increases_exactly
    ⟨[⟨1, 1, "M", "Red", "S", 10, 5⟩], [], 1⟩ ⟨0, "INBOUND", [⟨1, 5⟩]⟩ (by decide)

/-- Claim C9: create_adjustment_order persists the ADJUST document first
(it is in the store even when the call fails); on failure the final
variant store equals the successful application of some prefix of the
items — earlier deltas stay applied — and the error is a
BusinessRuleViolation naming the variant whose current stock plus the
item's signed quantity is negative; on success every variant's stock
moves by the sum of its items' signed quantities. -/
theorem claim9_adjustment_persists_then_applies_per_item
    (s : State) (document : Document) (h : document.doc_type = "ADJUST") :
    (InventoryService.create_adjustment_order s document).1.documents =
      s.documents ++ [{ document with id := s.next_doc_id }] ∧
    (∀ e, (InventoryService.create_adjustment_order s document).2 = .error e →
      ∃ pre item post v,
        document.items = pre ++ item :: post ∧
        InventoryService.adjust_items s.variants pre =
          ((InventoryService.create_adjustment_order s document).1.variants, none) ∧
        ProductRepo.get_variant_by_id
          (InventoryService.create_adjustment_order s document).1.variants
          item.variant_id = some v ∧
        v.stock_qty + item.quantity < 0 ∧
        e = .businessRuleViolation ("調整後庫存不能為負數: " ++ v.display_name)) ∧
    (∀ d, (InventoryService.create_adjustment_order s document).2 = .ok d →
      ∀ vid, stock_of (InventoryService.create_adjustment_order s document).1.variants vid =
        (stock_of s.variants vid).map (fun q => q + items_sum document.items vid)) := by
  cases hr : InventoryService.adjust_items s.variants document.items with
  | mk vs r =>
    cases r with
    | none =>
      rw [create_adjustment_eq_ok h hr]
      refine ⟨rfl, fun e he => Except.noConfusion he, fun d _ vid => ?_⟩
      exact adjust_items_ok_stock document.items s.variants vs hr vid
    | some e0 =>
      rw [create_adjustment_eq_err h hr]
      refine ⟨rfl, fun e he => ?_, fun d hd => Except.noConfusion hd⟩
      obtain rfl : e0 = e := Except.error.inj he
      exact adjust_items_error document.items s.variants vs e0 hr

/-- Claim C9, witness: variant 1 has stock 10, variant 2 has stock 0; an
ADJUST document with items (1, -2) then (2, -1) persists, applies the
first delta, and fails on the second item. -/
theorem claim9_witness :
    (InventoryService.create_adjustment_order
      ⟨[⟨1, 1, "M", "Red", "S", 10, 5⟩, ⟨2, 1, "L", "Blue", "T", 0, 5⟩], [], 1⟩
      ⟨0, "ADJUST", [⟨1, -2⟩, ⟨2, -1⟩]⟩).1.documents =
        [] ++ [{ (⟨0, "ADJUST", [⟨1, -2⟩, ⟨2, -1⟩]⟩ : Document) with id := 1 }] ∧
    (∀ e, (InventoryService.create_adjustment_order
      ⟨[⟨1, 1, "M", "Red", "S", 10, 5⟩, ⟨2, 1, "L", "Blue", "T", 0, 5⟩], [], 1⟩
      ⟨0, "ADJUST", [⟨1, -2⟩, ⟨2, -1⟩]⟩).2 = .error e →
      ∃ pre item post v,
        ([⟨1, -2⟩, ⟨2, -1⟩] : List DocumentItem) = pre ++ item :: post ∧
        InventoryService.adjust_items
          [⟨1, 1, "M", "Red", "S", 10, 5⟩, ⟨2, 1, "L", "Blue", "T", 0, 5⟩] pre =
          ((InventoryService.create_adjustment_order
            ⟨[⟨1, 1, "M", "Red", "S", 10, 5⟩, ⟨2, 1, "L", "Blue", "T", 0, 5⟩], [], 1⟩
            ⟨0, "ADJUST", [⟨1, -2⟩, ⟨2, -1⟩]⟩).1.variants, none) ∧
        ProductRepo.get_variant_by_id
          (InventoryService.create_adjustment_order
            ⟨[⟨1, 1, "M", "Red", "S", 10, 5⟩, ⟨2, 1, "L", "Blue", "T", 0, 5⟩], [], 1⟩
            ⟨0, "ADJUST", [⟨1, -2⟩, ⟨2, -1⟩]⟩).1.variants
          item.variant_id = some v ∧
        v.stock_qty + item.quantity < 0 ∧
        e = .businessRuleViolation ("調整後庫存不能為負數: " ++ v.display_name)) ∧
    (∀ d, (InventoryService.create_adjustment_order
      ⟨[⟨1, 1, "M", "Red", "S", 10, 5⟩, ⟨2, 1, "L", "Blue", "T", 0, 5⟩], [], 1⟩
      ⟨0, "ADJUST", [⟨1, -2⟩, ⟨2, -1⟩]⟩).2 = .ok d →
      ∀ vid, stock_of (InventoryService.create_adjustment_order
        ⟨[⟨1, 1, "M", "Red", "S", 10, 5⟩, ⟨2, 1, "L", "Blue", "T", 0, 5⟩], [], 1⟩
        ⟨0, "ADJUST", [⟨1, -2⟩, ⟨2, -1⟩]⟩).1.variants vid =
          (stock_of [⟨1, 1, "M", "Red", "S", 10, 5⟩, ⟨2, 1, "L", "Blue", "T", 0, 5⟩] vid).map
            (fun q => q + items_sum [⟨1, -2⟩, ⟨2, -1⟩] vid)) :=
  claim9_adjustment_persists_then_applies_per_item
    ⟨[⟨1, 1, "M", "Red", "S", 10, 5⟩, ⟨2, 1, "L", "Blue", "T", 0, 5⟩], [], 1⟩
    ⟨0, "ADJUST", [⟨1, -2⟩, ⟨2, -1⟩]⟩ (by decide)

/-- Claim C3: delete_document computes per-variant net impacts first, and
if any variant with a negative net impact exists in the store but fails
`current + impact ≥ 0`, the whole deletion is rejected with
BusinessRuleViolation and the state — stocks and documents alike — is
returned unchanged (the document still exists); entries with zero or
positive net impact are skipped by the strict check. -/
theorem claim3_delete_rollback_strict_precheck :
    (∀ (s : State) (doc_id : Nat) (doc : Document) (vid : Nat) (c : Int) (v : Variant),
      DocumentRepo.get_document_by_id s.documents doc_id = some doc →
      (vid, c) ∈ InventoryService.compute_impacts doc →
      c < 0 →
      ProductRepo.get_variant_by_id s.variants vid = some v →
      v.stock_qty + c < 0 →
      ∃ m, InventoryService.delete_document s doc_id =
        (s, .error (.businessRuleViolation m))) ∧
    (∀ (vs : List Variant) (vid : Nat) (c : Int) (rest : List (Nat × Int)),
      0 ≤ c →
      InventoryService.strict_check vs ((vid, c) :: rest) =
        InventoryService.strict_check vs rest) := by
  refine ⟨?_, strict_check_skip⟩
  intro s doc_id doc vid c v hd hmem hc hg hf
  obtain ⟨m, hm⟩ := strict_check_some_of_fail hc hg hf _ hmem
  exact ⟨m, delete_document_eq_err hd hm⟩

/-- Claim C3, witness: variant 1 has stock 0 and the stored INBOUND
document 7 would roll back by -5; its deletion is rejected with state and
document untouched; and the strict check skips a non-negative entry. -/
theorem claim3_witness :
    (∃ m, InventoryService.delete_document
      ⟨[⟨1, 1, "M", "Red", "S", 0, 5⟩], [⟨7, "INBOUND", [⟨1, 5⟩]⟩], 8⟩ 7 =
      (⟨[⟨1, 1, "M", "Red", "S", 0, 5⟩], [⟨7, "INBOUND", [⟨1, 5⟩]⟩], 8⟩,
       .error (.businessRuleViolation m))) ∧
    InventoryService.strict_check [] [((1 : Nat), (2 : Int))] =
      InventoryService.strict_check [] [] :=
  ⟨claim3_delete_rollback_strict_precheck.1
      ⟨[⟨1, 1, "M", "Red", "S", 0, 5⟩], [⟨7, "INBOUND", [⟨1, 5⟩]⟩], 8⟩ 7
      ⟨7, "INBOUND", [⟨1, 5⟩]⟩ 1 (-5) ⟨1, 1, "M", "Red", "S", 0, 5⟩
      (by decide) (by decide) (by decide) (by decide) (by decide),
   claim3_delete_rollback_strict_precheck.2 [] 1 2 [] (by decide)⟩

/-- Claim C5: creating an INBOUND document whose referenced variants all
exist (with non-negative stocks, the global invariant, and a fresh
document id) and then deleting it restores every variant's stock to its
value before the creation; the deletion itself succeeds because each
rollback check sees `(before + sum) - sum = before ≥ 0`. -/
theorem claim5_inbound_then_delete_restores_stock
    (s : State) (document : Document)
    (htype : document.doc_type = "INBOUND")
    (hexist : ∀ item ∈ document.items,
      (stock_of s.variants item.variant_id).isSome = true)
    (hnonneg : ∀ v ∈ s.variants, 0 ≤ v.stock_qty)
    (hfresh : ∀ d ∈ s.documents, d.id ≠ s.next_doc_id) :
    ∃ saved,
      (InventoryService.create_inbound_order s document).2 = .ok saved ∧
      (InventoryService.delete_document
        (InventoryService.create_inbound_order s document).1 saved.id).2 = .ok () ∧
      ∀ vid, stock_of (InventoryService.delete_document
        (InventoryService.create_inbound_order s document).1 saved.id).1.variants vid =
          stock_of s.variants vid := by
  have hci := create_inbound_eq (s := s) htype
  have hdoc : DocumentRepo.get_document_by_id
      ((InventoryService.create_inbound_order s document).1).documents
      ({ document with id := s.next_doc_id } : Document).id =
      some { document with id := s.next_doc_id } := by
    rw [hci]
    exact get_document_append_fresh s.documents _ (fun d hd => hfresh d hd)
  have himp : ∀ vid,
      impact_sum (InventoryService.compute_impacts
        { document with id := s.next_doc_id }) vid =
      - items_sum document.items vid := by
    intro vid
    rw [impact_sum_compute,
      show ({ document with id := s.next_doc_id } : Document).doc_type = "INBOUND"
        from htype]
    exact reversal_sum_inbound document.items vid
  have hs1 : ∀ vid,
      stock_of ((InventoryService.create_inbound_order s document).1).variants vid =
        (stock_of s.variants vid).map (fun q => q + items_sum document.items vid) := by
    intro vid
    rw [hci]
    exact stock_apply_inbound document.items s.variants vid
  have hchk : InventoryService.strict_check
      ((InventoryService.create_inbound_order s document).1).variants
      (InventoryService.compute_impacts { document with id := s.next_doc_id }) =
      none := by
    refine strict_check_none _ ?_
    rintro ⟨vid, c⟩ hp hc v hv
    have hnd := keys_compute_impacts_nodup { document with id := s.next_doc_id }
    have hcval : c = - items_sum document.items vid := by
      have h1 := mem_impact_sum _ vid c hnd hp
      rw [himp vid] at h1
      exact h1.symm
    have hv' : stock_of
        ((InventoryService.create_inbound_order s document).1).variants vid =
        some v.stock_qty := by
      rw [stock_of, hv]
      rfl
    rw [hs1 vid] at hv'
    cases hs0 : stock_of s.variants vid with
    | none =>
      rw [hs0] at hv'
      simp at hv'
    | some q0 =>
      rw [hs0] at hv'
      have hq : q0 + items_sum document.items vid = v.stock_qty := by
        simpa using hv'
      obtain ⟨w, hw, hwq⟩ :
          ∃ w, ProductRepo.get_variant_by_id s.variants vid = some w ∧
            w.stock_qty = q0 := by
        rw [stock_of] at hs0
        cases hg0 : ProductRepo.get_variant_by_id s.variants vid with
        | none => rw [hg0] at hs0; simp at hs0
        | some w => rw [hg0] at hs0; exact ⟨w, rfl, by simpa using hs0⟩
      have hwmem : w ∈ s.variants := List.mem_of_find?_eq_some hw
      have h0 : 0 ≤ q0 := hwq ▸ hnonneg w hwmem
      rw [hcval, ← hq]
      omega
  have hdel := delete_document_eq_ok hdoc hchk
  refine ⟨{ document with id := s.next_doc_id }, by rw [hci], by rw [hdel], ?_⟩
  intro vid
  rw [hdel]
  show stock_of (InventoryService.apply_impacts
      ((InventoryService.create_inbound_order s document).1).variants
      (InventoryService.compute_impacts { document with id := s.next_doc_id })) vid =
    stock_of s.variants vid
  rw [stock_apply_impacts, hs1 vid, himp vid]
  cases hs0 : stock_of s.variants vid with
  | none => rfl
  | some q0 => simp

/-- Claim C5, witness: the spec's scenario — stock 10, INBOUND quantity 5
(stock becomes 15), then deletion applies impact -5 and restores 10. -/
theorem claim5_witness :
    ∃ saved,
      (InventoryService.create_inbound_order
        ⟨[⟨1, 1, "M", "Red", "S", 10, 5⟩], [], 1⟩ ⟨0, "INBOUND", [⟨1, 5⟩]⟩).2 =
          .ok saved ∧
      (InventoryService.delete_document
        (InventoryService.create_inbound_order
          ⟨[⟨1, 1, "M", "Red", "S", 10, 5⟩], [], 1⟩
          ⟨0, "INBOUND", [⟨1, 5⟩]⟩).1 saved.id).2 = .ok () ∧
      ∀ vid, stock_of (InventoryService.delete_document
        (InventoryService.create_inbound_order
          ⟨[⟨1, 1, "M", "Red", "S", 10, 5⟩], [], 1⟩
          ⟨0, "INBOUND", [⟨1, 5⟩]⟩).1 saved.id).1.variants vid =
          stock_of [⟨1, 1, "M", "Red", "S", 10, 5⟩] vid :=
  claim5_inbound_then_delete_restores_stock
    ⟨[⟨1, 1, "M", "Red", "S", 10, 5⟩], [], 1⟩ ⟨0, "INBOUND", [⟨1, 5⟩]⟩
    (by decide) (by decide) (by decide) (by decide)

end WMS
